import Mathlib

/-!
# Verification of the orderbook sequencer / journal / replay triad

A shallow embedding of the `sequencer` module of the `orderbook` repository:
the command / result / event / receipt data model, the in-memory journal,
the single-writer sequencer event loop, the replay engine and the
timestamp-independent snapshot comparison.

The order book itself (`crate::orderbook`) is an external collaborator of
the core: it is not part of the sequencer sources, so it is modelled from
the interface contract the specification gives for it (fresh book per
symbol, `add_order`, `cancel_order`, `create_snapshot`).

Machine integers (`u64` sequence numbers, timestamps, quantities, `u128`
order ids) are modelled as `Nat`; the sequence counter is incremented once
per command and in any realizable run stays far below `2^64`, so wrap-around
is not modelled.
-/

deriving instance DecidableEq for Except

/-- Modelled from the spec: order side. The order description is "an opaque
order description owned by the book layer"; a side is needed to place it in
the bid or ask half of the book. -/
inductive Side where
  | Buy : Side
  | Sell : Side
  deriving DecidableEq

/-- Modelled from the spec: an opaque order description owned by the book
layer, carrying a 128-bit unique identifier, a price and a visible
quantity. -/
structure Order where
  id : Nat
  side : Side
  price : Nat
  visible_quantity : Nat
  deriving DecidableEq

/-- Modelled from the spec: a book-level error. `OrderNotFound` is the
variant the sequencer core itself constructs for a cancel of an absent id;
`DuplicateOrderId` stands for the book rejecting an add. -/
inductive OrderBookError where
  | OrderNotFound : Nat → OrderBookError
  | DuplicateOrderId : Nat → OrderBookError
  deriving DecidableEq

/-- Modelled from the spec: opaque details of a trade execution (the
matching engine is out of scope for the core). -/
structure TradeResult where
  deriving DecidableEq

/-- Rust `SequencerCommand` from `command.rs`: tagged union over the operation
set, `AddOrder(order)` or `CancelOrder(order_id)`. -/
inductive SequencerCommand where
  | AddOrder : Order → SequencerCommand
  | CancelOrder : Nat → SequencerCommand
  deriving DecidableEq

/-- Rust `SequencerResult` from `result.rs`: outcome of executing a command. -/
inductive SequencerResult where
  | OrderAdded : (order_id : Nat) → SequencerResult
  | OrderCancelled : (order_id : Nat) → SequencerResult
  | TradeExecuted : (trade_result : TradeResult) → SequencerResult
  | Rejected : (error : OrderBookError) → SequencerResult
  deriving DecidableEq

/-- Rust `SequencerResult::is_rejected` from `result.rs`. -/
def SequencerResult.is_rejected : SequencerResult → Bool
  | .Rejected _ => true
  | _ => false

/-- Rust `SequencerResult::is_success` from `result.rs`: not `Rejected`. -/
def SequencerResult.is_success (r : SequencerResult) : Bool :=
  !r.is_rejected

/-- Rust `SequencerEvent` from `event.rs`: the authoritative record of one
executed command. -/
structure SequencerEvent where
  sequence_num : Nat
  timestamp_ns : Nat
  command : SequencerCommand
  result : SequencerResult
  deriving DecidableEq

/-- Rust `SequencerEvent::new` from `event.rs`. -/
def SequencerEvent.new (sequence_num timestamp_ns : Nat)
    (command : SequencerCommand) (result : SequencerResult) : SequencerEvent :=
  { sequence_num, timestamp_ns, command, result }

/-- Rust `SequencerReceipt` from `receipt.rs`: returned to the submitter. -/
structure SequencerReceipt where
  sequence_num : Nat
  result : SequencerResult
  deriving DecidableEq

/-- Rust `SequencerReceipt::new` from `receipt.rs`. -/
def SequencerReceipt.new (sequence_num : Nat) (result : SequencerResult) :
    SequencerReceipt :=
  { sequence_num, result }

/-- Rust `PriceLevelSnapshot` (from the external `pricelevel` crate), modelled
from the spec: a `{price, visible_quantity, …}` record; the order count
stands for the fields beyond price and visible quantity that core equality
ignores. -/
structure PriceLevelSnapshot where
  price : Nat
  visible_quantity : Nat
  order_count : Nat
  deriving DecidableEq

/-- Rust `OrderBookSnapshot` (external to the core), per the spec: symbol,
timestamp, and the two ordered collections of price levels. -/
structure OrderBookSnapshot where
  symbol : String
  timestamp : Nat
  bids : List PriceLevelSnapshot
  asks : List PriceLevelSnapshot
  deriving DecidableEq

/-- Modelled from the spec: the external order book consumed by the core.
Holds the symbol it was created for and its resting orders in arrival
order. -/
structure OrderBook where
  symbol : String
  orders : List Order
  deriving DecidableEq

/-- Modelled from the spec: `new(symbol) -> Book`, a fresh empty book. -/
def OrderBook.new (symbol : String) : OrderBook :=
  { symbol, orders := [] }

/-- Modelled from the spec: `add_order(order) -> Result<_, OrderBookError>`
adds or rejects. The model rejects an order whose id is already resting
(one concrete book-level rejection); matching is out of scope. -/
def OrderBook.add_order (book : OrderBook) (order : Order) :
    Except OrderBookError OrderBook :=
  if book.orders.any (fun o => o.id == order.id) then
    .error (.DuplicateOrderId order.id)
  else
    .ok { book with orders := book.orders ++ [order] }

/-- Modelled from the spec:
`cancel_order(order_id) -> Result<Option<RemovedOrder>, _>`, `Ok(None)` if
the id is absent. Returns the removed order (if any) and the book after
removal. -/
def OrderBook.cancel_order (book : OrderBook) (orderId : Nat) :
    Except OrderBookError (Option Order × OrderBook) :=
  match book.orders.find? (fun o => o.id == orderId) with
  | some o =>
      .ok (some o, { book with orders := book.orders.filter (fun o => o.id != orderId) })
  | none => .ok (none, book)

/-- Stable insertion step for `sortBy`: `x` is placed before the first
element `y` with `le x y`, so elements comparing equal keep their original
relative order — the behavior of Rust's stable `sort_by`. -/
def insertBy (le : α → α → Bool) (x : α) : List α → List α
  | [] => [x]
  | y :: ys => if le x y then x :: y :: ys else y :: insertBy le x ys

/-- Stable sort by a boolean `le` comparator, modelling Rust's stable
`sort_by` / `sort_by_key`. -/
def sortBy (le : α → α → Bool) : List α → List α
  | [] => []
  | x :: xs => insertBy le x (sortBy le xs)

/-- The `usize::MAX` sentinel: `create_snapshot(usize::MAX)` means an
unbounded-depth snapshot. -/
def USIZE_MAX : Nat := 2 ^ 64 - 1

/-- Modelled from the spec: the aggregated price level for `price` among
`orders` (sum of visible quantities, count of orders). -/
def levelAt (orders : List Order) (price : Nat) : PriceLevelSnapshot :=
  let here := orders.filter (fun o => o.price == price)
  { price
    visible_quantity := (here.map (fun o => o.visible_quantity)).sum
    order_count := here.length }

/-- Modelled from the spec: `create_snapshot(depth)` — a point-in-time view
of both sides up to `depth` levels, bids by descending price, asks by
ascending price; `usize::MAX` means unbounded. The wall-clock reading is
passed in as `timestamp`. -/
def OrderBook.create_snapshot (book : OrderBook) (depth : Nat) (timestamp : Nat) :
    OrderBookSnapshot :=
  let bidOrders := book.orders.filter (fun o => o.side == Side.Buy)
  let askOrders := book.orders.filter (fun o => o.side == Side.Sell)
  let bidPrices := sortBy (fun a b => decide (b ≤ a)) (bidOrders.map (fun o => o.price)).dedup
  let askPrices := sortBy (fun a b => decide (a ≤ b)) (askOrders.map (fun o => o.price)).dedup
  let bidLevels := bidPrices.map (levelAt bidOrders)
  let askLevels := askPrices.map (levelAt askOrders)
  { symbol := book.symbol
    timestamp
    bids := if depth == USIZE_MAX then bidLevels else bidLevels.take depth
    asks := if depth == USIZE_MAX then askLevels else askLevels.take depth }

/-- Rust `InMemoryJournal` from `journal.rs`: stores all events in a `Vec` in
insertion order. -/
structure InMemoryJournal where
  events : List SequencerEvent
  deriving DecidableEq

/-- Rust `ReplayError` from `replay.rs`. -/
inductive ReplayError where
  | EmptyJournal : ReplayError
  | InvalidSequence : (from_sequence : Nat) → (last_sequence : Nat) → ReplayError
  | SequenceGap : (expected : Nat) → (found : Nat) → ReplayError
  | OrderBookError : (sequence_num : Nat) → (source : OrderBookError) → ReplayError
  | SnapshotMismatch : ReplayError
  deriving DecidableEq

/-- Rust `InMemoryJournal::new` from `journal.rs`. -/
def InMemoryJournal.new : InMemoryJournal :=
  { events := [] }

/-- Rust `InMemoryJournal::append` (the `Journal` impl in `journal.rs`): pushes
the event at the end; in-memory append is infallible. -/
def InMemoryJournal.append (journal : InMemoryJournal) (event : SequencerEvent) :
    Except ReplayError InMemoryJournal :=
  .ok { events := journal.events ++ [event] }

/-- Rust `InMemoryJournal::read_from` from `journal.rs`: iterates the stored
events and keeps those with `sequence_num >= from_sequence`. -/
def InMemoryJournal.read_from (journal : InMemoryJournal) (from_sequence : Nat) :
    List SequencerEvent :=
  journal.events.filter (fun e => decide (from_sequence ≤ e.sequence_num))

/-- Rust `InMemoryJournal::read_range` from `journal.rs`: keeps events with
`from_sequence <= sequence_num <= to_sequence`. -/
def InMemoryJournal.read_range (journal : InMemoryJournal)
    (from_sequence to_sequence : Nat) : List SequencerEvent :=
  journal.events.filter
    (fun e => decide (from_sequence ≤ e.sequence_num) && decide (e.sequence_num ≤ to_sequence))

/-- Rust `InMemoryJournal::len` from `journal.rs`. -/
def InMemoryJournal.len (journal : InMemoryJournal) : Nat :=
  journal.events.length

/-- The `Journal::is_empty` default from `journal.rs`: `len() == 0`. -/
def InMemoryJournal.is_empty (journal : InMemoryJournal) : Bool :=
  journal.len == 0

/-- Rust `InMemoryJournal::last_sequence` from `journal.rs`: sequence number of
the last stored event, `None` if empty. -/
def InMemoryJournal.last_sequence (journal : InMemoryJournal) : Option Nat :=
  journal.events.getLast?.map (fun e => e.sequence_num)

/-- Rust `ReplayEngine::apply_event` from `replay.rs`: events with `Rejected`
results are skipped; otherwise the command is re-executed on the book, a
book error surfacing as `ReplayError.OrderBookError` tagged with the
event's sequence number. -/
def ReplayEngine.apply_event (book : OrderBook) (event : SequencerEvent) :
    Except ReplayError OrderBook :=
  if event.result.is_rejected then
    .ok book
  else
    match event.command with
    | .AddOrder order =>
        match book.add_order order with
        | .ok book' => .ok book'
        | .error e => .error (.OrderBookError event.sequence_num e)
    | .CancelOrder id =>
        match book.cancel_order id with
        | .ok (_, book') => .ok book'
        | .error e => .error (.OrderBookError event.sequence_num e)

/-- The `for event in journal.read_from(..)` loop body of
`ReplayEngine::replay_from_with_progress`: applies each event, tracks the
last sequence number seen and the running count, and threads the progress
callback as explicit state `s`. -/
def ReplayEngine.replayLoop (progress : σ → Nat → Nat → σ) :
    List SequencerEvent → OrderBook → Nat → Nat → σ →
    Except ReplayError (OrderBook × Nat × σ)
  | [], book, lastSeq, _, s => .ok (book, lastSeq, s)
  | event :: rest, book, _, count, s =>
      match ReplayEngine.apply_event book event with
      | .error e => .error e
      | .ok book' =>
          ReplayEngine.replayLoop progress rest book' event.sequence_num
            (count + 1) (progress s (count + 1) event.sequence_num)

/-- Rust `ReplayEngine::replay_from_with_progress` from `replay.rs`: guards
(`EmptyJournal`, `InvalidSequence`), then replays `read_from(from_sequence)`
onto a fresh book for `symbol`, invoking `progress` after each event. The
callback's effect is modelled by threading a state of type `σ`. -/
def ReplayEngine.replay_from_with_progress (journal : InMemoryJournal)
    (from_sequence : Nat) (symbol : String)
    (progress : σ → Nat → Nat → σ) (init : σ) :
    Except ReplayError (OrderBook × Nat × σ) :=
  if journal.is_empty then
    .error .EmptyJournal
  else if journal.last_sequence.any (fun last => decide (last < from_sequence)) then
    .error (.InvalidSequence from_sequence (journal.last_sequence.getD 0))
  else
    ReplayEngine.replayLoop progress (journal.read_from from_sequence)
      (OrderBook.new symbol) 0 0 init

/-- Rust `ReplayEngine::replay_from` from `replay.rs`: delegates to
`replay_from_with_progress` with a no-op progress closure. -/
def ReplayEngine.replay_from (journal : InMemoryJournal) (from_sequence : Nat)
    (symbol : String) : Except ReplayError (OrderBook × Nat) :=
  match ReplayEngine.replay_from_with_progress journal from_sequence symbol
      (fun (u : Unit) _ _ => u) () with
  | .ok (book, lastSeq, _) => .ok (book, lastSeq)
  | .error e => .error e

/-- Rust `ReplayEngine::replay_range` from `replay.rs`: same guards, then the
materialized `read_range` slice; no book is constructed. -/
def ReplayEngine.replay_range (journal : InMemoryJournal)
    (from_sequence to_sequence : Nat) :
    Except ReplayError (List SequencerEvent) :=
  if journal.is_empty then
    .error .EmptyJournal
  else if journal.last_sequence.any (fun last => decide (last < from_sequence)) then
    .error (.InvalidSequence from_sequence (journal.last_sequence.getD 0))
  else
    .ok (journal.read_range from_sequence to_sequence)

/-- Pairwise comparison of two already-sorted price-level lists: identical
length and, level by level, equal `price` and `visible_quantity` (the
length check plus the paired loop of `snapshots_match`). -/
def levelsMatch : List PriceLevelSnapshot → List PriceLevelSnapshot → Bool
  | [], [] => true
  | [], _ :: _ => false
  | _ :: _, [] => false
  | a :: as, b :: bs =>
      decide (a.price = b.price) && decide (a.visible_quantity = b.visible_quantity)
        && levelsMatch as bs

/-- Rust `snapshots_match` from `replay.rs`: symbols identical, bids compared
after a stable sort by descending price, asks after a stable sort by
ascending price; timestamps intentionally excluded. -/
def snapshots_match (actual expected : OrderBookSnapshot) : Bool :=
  decide (actual.symbol = expected.symbol)
    && levelsMatch (sortBy (fun a b => decide (b.price ≤ a.price)) actual.bids)
         (sortBy (fun a b => decide (b.price ≤ a.price)) expected.bids)
    && levelsMatch (sortBy (fun a b => decide (a.price ≤ b.price)) actual.asks)
         (sortBy (fun a b => decide (a.price ≤ b.price)) expected.asks)

/-- Rust `ReplayEngine::verify` from `replay.rs`: replays the full journal from
sequence 0 into a fresh book for the expected snapshot's symbol, snapshots
it at unbounded depth and compares with `snapshots_match`. The wall-clock
reading for the fresh snapshot is passed as `ts`. -/
def ReplayEngine.verify (journal : InMemoryJournal)
    (expected_snapshot : OrderBookSnapshot) (ts : Nat) :
    Except ReplayError Bool :=
  match ReplayEngine.replay_from journal 0 expected_snapshot.symbol with
  | .error e => .error e
  | .ok (book, _) =>
      .ok (snapshots_match (book.create_snapshot USIZE_MAX ts) expected_snapshot)

/-- Rust `Sequencer` state from `core.rs`: the wrapped book, the monotonic
sequence counter, and the ingress channel capacity (the listener set and
channel endpoints have no pure-state content beyond the event and receipt
streams `run_loop` produces). -/
structure Sequencer where
  book : OrderBook
  sequence : Nat
  capacity : Nat
  deriving DecidableEq

/-- Rust `Sequencer::with_capacity` from `core.rs`: fresh sequencer over `book`,
sequence counter starting at 1. -/
def Sequencer.with_capacity (book : OrderBook) (capacity : Nat) : Sequencer :=
  { book, sequence := 1, capacity }

/-- Rust `Sequencer::new` from `core.rs`: `with_capacity(book, 65536)`. -/
def Sequencer.new (book : OrderBook) : Sequencer :=
  Sequencer.with_capacity book 65536

/-- Rust `Sequencer::execute_add_order` from `core.rs`. -/
def Sequencer.execute_add_order (book : OrderBook) (order : Order) :
    OrderBook × SequencerResult :=
  match book.add_order order with
  | .ok book' => (book', .OrderAdded order.id)
  | .error e => (book, .Rejected e)

/-- Rust `Sequencer::execute_cancel_order` from `core.rs`: `Ok(Some)` →
`OrderCancelled`, `Ok(None)` → `Rejected{OrderNotFound}`, `Err` →
`Rejected`. -/
def Sequencer.execute_cancel_order (book : OrderBook) (orderId : Nat) :
    OrderBook × SequencerResult :=
  match book.cancel_order orderId with
  | .ok (some _, book') => (book', .OrderCancelled orderId)
  | .ok (none, book') => (book', .Rejected (.OrderNotFound orderId))
  | .error e => (book, .Rejected e)

/-- Rust `Sequencer::execute_command` from `core.rs`. -/
def Sequencer.execute_command (book : OrderBook) :
    SequencerCommand → OrderBook × SequencerResult
  | .AddOrder order => Sequencer.execute_add_order book order
  | .CancelOrder orderId => Sequencer.execute_cancel_order book orderId

/-- Rust `Sequencer::run_loop` from `core.rs`, over the FIFO list of commands
the ingress channel admitted (concurrent producers are linearized by the
channel). Per command: fetch-and-increment the counter, read the clock,
execute on the book, build the event, deliver it to the listeners (the
returned event list is the listener-observed stream), then build the
receipt from the event's sequence number and result. `clock n` is the
wall-clock reading at the n-th remaining iteration. -/
def Sequencer.run_loop (state : Sequencer) (clock : Nat → Nat) :
    List SequencerCommand → Sequencer × List SequencerEvent × List SequencerReceipt
  | [] => (state, [], [])
  | command :: rest =>
      let seq := state.sequence
      let ts := clock 0
      let executed := Sequencer.execute_command state.book command
      let event := SequencerEvent.new seq ts command executed.2
      let receipt := SequencerReceipt.new seq event.result
      let next :=
        Sequencer.run_loop { state with book := executed.1, sequence := seq + 1 }
          (fun n => clock (n + 1)) rest
      (next.1, event :: next.2.1, receipt :: next.2.2)

/-! ## Helper lemmas -/

theorem levelsMatch_refl (xs : List PriceLevelSnapshot) : levelsMatch xs xs = true := by
  induction xs with
  | nil => rfl
  | cons a as ih => simp [levelsMatch, ih]

theorem levelsMatch_comm (xs ys : List PriceLevelSnapshot) :
    levelsMatch xs ys = levelsMatch ys xs := by
  induction xs generalizing ys with
  | nil => cases ys <;> rfl
  | cons a as ih =>
      cases ys with
      | nil => rfl
      | cons b bs =>
          have h1 : decide (a.price = b.price) = decide (b.price = a.price) :=
            decide_eq_decide.mpr ⟨Eq.symm, Eq.symm⟩
          have h2 : decide (a.visible_quantity = b.visible_quantity)
              = decide (b.visible_quantity = a.visible_quantity) :=
            decide_eq_decide.mpr ⟨Eq.symm, Eq.symm⟩
          simp only [levelsMatch, h1, h2, ih]

theorem snapshots_match_of_components (a b : OrderBookSnapshot)
    (hs : a.symbol = b.symbol) (hb : a.bids = b.bids) (ha : a.asks = b.asks) :
    snapshots_match a b = true := by
  simp [snapshots_match, hs, hb, ha, levelsMatch_refl]

theorem create_snapshot_timestamp_irrelevant (book : OrderBook) (depth t1 t2 : Nat) :
    snapshots_match (book.create_snapshot depth t1) (book.create_snapshot depth t2) = true := by
  exact snapshots_match_of_components _ _ rfl rfl rfl

theorem read_from_zero (J : InMemoryJournal) : J.read_from 0 = J.events := by
  simp [InMemoryJournal.read_from, Nat.zero_le]

theorem is_empty_false_of_ne (J : InMemoryJournal) (h : J.events ≠ []) :
    J.is_empty = false := by
  simp [InMemoryJournal.is_empty, InMemoryJournal.len, h]

theorem last_sequence_guard_zero (J : InMemoryJournal) :
    J.last_sequence.any (fun last => decide (last < 0)) = false := by
  cases J.last_sequence <;> simp [Option.any]

theorem replay_from_with_progress_of_ne {σ : Type} (J : InMemoryJournal)
    (h : J.events ≠ []) (s : String) (progress : σ → Nat → Nat → σ) (init : σ) :
    ReplayEngine.replay_from_with_progress J 0 s progress init =
      ReplayEngine.replayLoop progress J.events (OrderBook.new s) 0 0 init := by
  unfold ReplayEngine.replay_from_with_progress
  rw [is_empty_false_of_ne J h, last_sequence_guard_zero J, read_from_zero J]
  simp

theorem replay_from_of_ne (J : InMemoryJournal) (h : J.events ≠ []) (s : String) :
    ReplayEngine.replay_from J 0 s =
      match ReplayEngine.replayLoop (fun (u : Unit) _ _ => u) J.events
          (OrderBook.new s) 0 0 () with
      | .ok (book, lastSeq, _) => .ok (book, lastSeq)
      | .error e => .error e := by
  unfold ReplayEngine.replay_from
  rw [replay_from_with_progress_of_ne J h s]

theorem apply_event_error_shape (book : OrderBook) (event : SequencerEvent)
    (e : ReplayError) (h : ReplayEngine.apply_event book event = .error e) :
    ∃ n src, e = .OrderBookError n src := by
  unfold ReplayEngine.apply_event at h
  split at h
  · exact absurd h (by simp)
  · split at h
    · split at h
      · exact absurd h (by simp)
      · injection h with h2
        exact ⟨event.sequence_num, _, h2.symm⟩
    · split at h
      · exact absurd h (by simp)
      · injection h with h2
        exact ⟨event.sequence_num, _, h2.symm⟩

theorem replayLoop_error_shape {σ : Type} (progress : σ → Nat → Nat → σ)
    (events : List SequencerEvent) (book : OrderBook) (lastSeq count : Nat) (s : σ)
    (e : ReplayError)
    (h : ReplayEngine.replayLoop progress events book lastSeq count s = .error e) :
    ∃ n src, e = .OrderBookError n src := by
  induction events generalizing book lastSeq count s with
  | nil => exact absurd h (by simp [ReplayEngine.replayLoop])
  | cons ev rest ih =>
      rw [ReplayEngine.replayLoop] at h
      cases hap : ReplayEngine.apply_event book ev with
      | error e' =>
          rw [hap] at h
          injection h with h2
          subst h2
          exact apply_event_error_shape book ev _ hap
      | ok book' =>
          rw [hap] at h
          exact ih book' ev.sequence_num (count + 1) (progress s (count + 1) ev.sequence_num) h

theorem replayLoop_last {σ : Type} (progress : σ → Nat → Nat → σ)
    (events : List SequencerEvent) (book : OrderBook) (lastSeq count : Nat) (s : σ)
    (b : OrderBook) (q : Nat) (u : σ)
    (h : ReplayEngine.replayLoop progress events book lastSeq count s = .ok (b, q, u)) :
    q = ((events.map (fun e => e.sequence_num)).getLastD lastSeq) := by
  induction events generalizing book lastSeq count s with
  | nil =>
      rw [ReplayEngine.replayLoop] at h
      injection h with h2
      cases h2
      simp
  | cons ev rest ih =>
      rw [ReplayEngine.replayLoop] at h
      cases hap : ReplayEngine.apply_event book ev with
      | error e' => rw [hap] at h; exact absurd h (by simp)
      | ok book' =>
          rw [hap] at h
          rw [List.map_cons, List.getLastD_cons]
          exact ih book' ev.sequence_num (count + 1) _ h

/-- The progress callback that records every invocation `(count, seq)` in
order, used to observe the callback protocol of
`replay_from_with_progress`. -/
def recordProgress (log : List (Nat × Nat)) (count seq : Nat) : List (Nat × Nat) :=
  log ++ [(count, seq)]

theorem replayLoop_log (events : List SequencerEvent) (book : OrderBook)
    (lastSeq count : Nat) (acc : List (Nat × Nat)) (b : OrderBook) (q : Nat)
    (log : List (Nat × Nat))
    (h : ReplayEngine.replayLoop recordProgress events book lastSeq count acc
        = .ok (b, q, log)) :
    log = acc ++ List.zip (List.range' (count + 1) events.length)
      (events.map (fun e => e.sequence_num)) := by
  induction events generalizing book lastSeq count acc with
  | nil =>
      rw [ReplayEngine.replayLoop] at h
      injection h with h2
      cases h2
      simp
  | cons ev rest ih =>
      rw [ReplayEngine.replayLoop] at h
      cases hap : ReplayEngine.apply_event book ev with
      | error e' => rw [hap] at h; exact absurd h (by simp)
      | ok book' =>
          rw [hap] at h
          have := ih book' ev.sequence_num (count + 1) (recordProgress acc (count + 1) ev.sequence_num) h
          rw [this]
          simp [recordProgress, List.range'_succ, List.zip]

/-- Relation between an event list and a copy of it with extra events whose
result is `Rejected` inserted at arbitrary positions. -/
inductive InsertedRejected : List SequencerEvent → List SequencerEvent → Prop where
  | nil : InsertedRejected [] []
  | keep (e : SequencerEvent) {l l' : List SequencerEvent} :
      InsertedRejected l l' → InsertedRejected (e :: l) (e :: l')
  | extra (e : SequencerEvent) (he : e.result.is_rejected = true)
      {l l' : List SequencerEvent} :
      InsertedRejected l l' → InsertedRejected l (e :: l')

theorem InsertedRejected.eq_nil {l l' : List SequencerEvent}
    (h : InsertedRejected l l') (h' : l' = []) : l = [] := by
  cases h <;> simp_all

theorem apply_event_rejected (book : OrderBook) (event : SequencerEvent)
    (he : event.result.is_rejected = true) :
    ReplayEngine.apply_event book event = .ok book := by
  simp [ReplayEngine.apply_event, he]

theorem replayLoop_inserted {l l' : List SequencerEvent}
    (hins : InsertedRejected l l') :
    ∀ (book : OrderBook) (last1 cnt1 last2 cnt2 : Nat) (b : OrderBook) (q : Nat),
    ReplayEngine.replayLoop (fun (u : Unit) _ _ => u) l book last1 cnt1 () = .ok (b, q, ()) →
    ∃ q', ReplayEngine.replayLoop (fun (u : Unit) _ _ => u) l' book last2 cnt2 () = .ok (b, q', ()) := by
  induction hins with
  | nil =>
      intro book last1 cnt1 last2 cnt2 b q h
      rw [ReplayEngine.replayLoop] at h
      injection h with h2
      cases h2
      exact ⟨last2, by rw [ReplayEngine.replayLoop]⟩
  | keep e hrec ih =>
      intro book last1 cnt1 last2 cnt2 b q h
      rw [ReplayEngine.replayLoop] at h
      cases hap : ReplayEngine.apply_event book e with
      | error e' => rw [hap] at h; exact absurd h (by simp)
      | ok book1 =>
          rw [hap] at h
          obtain ⟨q', hq'⟩ := ih book1 e.sequence_num (cnt1 + 1) e.sequence_num (cnt2 + 1) b q h
          refine ⟨q', ?_⟩
          rw [ReplayEngine.replayLoop, hap]
          exact hq'
  | extra e he hrec ih =>
      intro book last1 cnt1 last2 cnt2 b q h
      obtain ⟨q', hq'⟩ := ih book last1 cnt1 e.sequence_num (cnt2 + 1) b q h
      refine ⟨q', ?_⟩
      rw [ReplayEngine.replayLoop, apply_event_rejected book e he]
      exact hq'

theorem run_loop_events_sequence (state : Sequencer) (clock : Nat → Nat)
    (cmds : List SequencerCommand) :
    ((state.run_loop clock cmds).2.1.map (fun e => e.sequence_num))
      = List.range' state.sequence cmds.length := by
  induction cmds generalizing state clock with
  | nil => simp [Sequencer.run_loop]
  | cons c rest ih =>
      simp only [Sequencer.run_loop, List.map_cons, List.length_cons, List.range'_succ]
      exact congrArg (state.sequence :: ·) (ih _ _)

theorem run_loop_receipts_eq (state : Sequencer) (clock : Nat → Nat)
    (cmds : List SequencerCommand) :
    (state.run_loop clock cmds).2.2
      = ((state.run_loop clock cmds).2.1).map
          (fun e => SequencerReceipt.new e.sequence_num e.result) := by
  induction cmds generalizing state clock with
  | nil => simp [Sequencer.run_loop]
  | cons c rest ih =>
      simp only [Sequencer.run_loop, List.map_cons]
      exact congrArg (_ :: ·) (ih _ _)

theorem run_loop_events_length (state : Sequencer) (clock : Nat → Nat)
    (cmds : List SequencerCommand) :
    (state.run_loop clock cmds).2.1.length = cmds.length := by
  have := run_loop_events_sequence state clock cmds
  have h2 := congrArg List.length this
  simpa using h2

/-! ## Concrete fixtures for witnesses and counterexamples -/

/-- A concrete resting buy order. -/
def wOrder1 : Order := { id := 1, side := .Buy, price := 100, visible_quantity := 10 }

/-- A successful `AddOrder` event at sequence 1. -/
def wAddEvent : SequencerEvent :=
  SequencerEvent.new 1 11 (.AddOrder wOrder1) (.OrderAdded 1)

/-- A rejected `CancelOrder` event at sequence 2. -/
def wRejEvent : SequencerEvent :=
  SequencerEvent.new 2 22 (.CancelOrder 99) (.Rejected (.OrderNotFound 99))

/-- Journal holding only the successful add. -/
def wJournal1 : InMemoryJournal := { events := [wAddEvent] }

/-- Journal holding the successful add followed by the rejected cancel. -/
def wJournal2 : InMemoryJournal := { events := [wAddEvent, wRejEvent] }

/-- The book that replaying either journal reconstructs. -/
def wBook1 : OrderBook := { symbol := "BTC/USD", orders := [wOrder1] }

/-- An event carrying sequence number 2, appended first. -/
def cEventSeq2 : SequencerEvent :=
  SequencerEvent.new 2 0 (.CancelOrder 5) (.OrderCancelled 5)

/-- An event carrying sequence number 1, appended second. -/
def cEventSeq1 : SequencerEvent :=
  SequencerEvent.new 1 0 (.CancelOrder 6) (.OrderCancelled 6)

/-- A journal whose stored events are not in ascending sequence order. -/
def cJournalUnsorted : InMemoryJournal := { events := [cEventSeq2, cEventSeq1] }

/-- Empty snapshots sharing a symbol but not a timestamp. -/
def wSnapA : OrderBookSnapshot := { symbol := "BTC/USD", timestamp := 1, bids := [], asks := [] }

/-- Second empty snapshot for the snapshot-equality witness. -/
def wSnapB : OrderBookSnapshot := { symbol := "BTC/USD", timestamp := 2, bids := [], asks := [] }

/-! ## Claim theorems -/

/-- Claim C1: replay determinism — for every journal `J` and symbol `s`, two
invocations of `replay_from(J, 0, s)` produce order books whose full-depth
snapshots satisfy `snapshots_match`, whatever wall-clock readings the two
snapshots are stamped with. -/
theorem replay_determinism (J : InMemoryJournal) (s : String)
    (b1 b2 : OrderBook) (q1 q2 t1 t2 : Nat)
    (h1 : ReplayEngine.replay_from J 0 s = .ok (b1, q1))
    (h2 : ReplayEngine.replay_from J 0 s = .ok (b2, q2)) :
    snapshots_match (b1.create_snapshot USIZE_MAX t1) (b2.create_snapshot USIZE_MAX t2)
      = true := by
  rw [h1] at h2
  injection h2 with h3
  have hb : b1 = b2 := congrArg Prod.fst h3
  rw [hb]
  exact create_snapshot_timestamp_irrelevant b2 USIZE_MAX t1 t2

/-- Witness for C1 at a concrete journal. -/
theorem replay_determinism_witness :
    ReplayEngine.replay_from wJournal2 0 "BTC/USD" = .ok (wBook1, 2) ∧
    snapshots_match (wBook1.create_snapshot USIZE_MAX 5) (wBook1.create_snapshot USIZE_MAX 9)
      = true :=
  ⟨by decide, replay_determinism wJournal2 "BTC/USD" wBook1 wBook1 2 2 5 9
    (by decide) (by decide)⟩

/-- Claim C2: for every run of a single sequencer instance over the FIFO
list of commands its channel admitted (concurrent producers are linearized
by the channel), the emitted events carry sequence numbers exactly
`1, 2, …, n` in emission order. -/
theorem sequencer_monotone_sequence (book : OrderBook) (capacity : Nat)
    (clock : Nat → Nat) (cmds : List SequencerCommand) :
    (((Sequencer.with_capacity book capacity).run_loop clock cmds).2.1.map
        (fun e => e.sequence_num)) = List.range' 1 cmds.length :=
  run_loop_events_sequence (Sequencer.with_capacity book capacity) clock cmds

/-- Claim C3: for every command processed by the event loop, exactly one
event and exactly one receipt are produced, and each receipt carries the
sequence number and the result of its event. -/
theorem sequencer_receipt_consistency (state : Sequencer) (clock : Nat → Nat)
    (cmds : List SequencerCommand) :
    (state.run_loop clock cmds).2.1.length = cmds.length ∧
    (state.run_loop clock cmds).2.2.length = cmds.length ∧
    (state.run_loop clock cmds).2.2
      = (state.run_loop clock cmds).2.1.map
          (fun e => SequencerReceipt.new e.sequence_num e.result) := by
  refine ⟨run_loop_events_length state clock cmds, ?_, run_loop_receipts_eq state clock cmds⟩
  rw [run_loop_receipts_eq]
  simp [run_loop_events_length]

/-- Claim C9: snapshot-equality algebra — `snapshots_match` is reflexive and
symmetric, returns `false` on differing symbols, and returns `true` on
equal symbols with empty sides for arbitrary timestamps. -/
theorem snapshots_match_algebra (a b : OrderBookSnapshot) :
    snapshots_match a a = true ∧
    snapshots_match a b = snapshots_match b a ∧
    (a.symbol ≠ b.symbol → snapshots_match a b = false) ∧
    (a.symbol = b.symbol → a.bids = [] → b.bids = [] → a.asks = [] → b.asks = [] →
      snapshots_match a b = true) := by
  refine ⟨snapshots_match_of_components a a rfl rfl rfl, ?_, ?_, ?_⟩
  · unfold snapshots_match
    rw [levelsMatch_comm (sortBy _ a.bids) (sortBy _ b.bids),
        levelsMatch_comm (sortBy _ a.asks) (sortBy _ b.asks),
        show decide (a.symbol = b.symbol) = decide (b.symbol = a.symbol) from
          decide_eq_decide.mpr ⟨Eq.symm, Eq.symm⟩]
  · intro hne
    unfold snapshots_match
    simp [hne]
  · intro hs hab hbb haa hba
    exact snapshots_match_of_components a b hs (hab.trans hbb.symm) (haa.trans hba.symm)

/-- Witness for C9 at concrete snapshots: differing-symbol and
empty-sides cases both discharged. -/
theorem snapshots_match_algebra_witness :
    wSnapA.symbol = wSnapB.symbol ∧
    snapshots_match wSnapA wSnapB = true :=
  ⟨by decide,
    (snapshots_match_algebra wSnapA wSnapB).2.2.2 (by decide) (by decide) (by decide)
      (by decide) (by decide)⟩

/-- Claim C8: error gating — `replay_from` on an empty journal yields
`EmptyJournal` for every `from_sequence` and symbol; on a non-empty journal
with last sequence `last`, `replay_from(J, last + 1, s)` yields
`InvalidSequence` carrying the requested start and the journal's last
sequence. In both cases the result is an error, so no book is returned. -/
theorem replay_error_gating :
    (∀ (J : InMemoryJournal) (fromSequence : Nat) (s : String), J.events = [] →
      ReplayEngine.replay_from J fromSequence s = .error .EmptyJournal) ∧
    (∀ (J : InMemoryJournal) (last : Nat) (s : String), J.last_sequence = some last →
      ReplayEngine.replay_from J (last + 1) s
        = .error (.InvalidSequence (last + 1) last)) := by
  constructor
  · intro J f s hJ
    unfold ReplayEngine.replay_from ReplayEngine.replay_from_with_progress
    simp [InMemoryJournal.is_empty, InMemoryJournal.len, hJ]
  · intro J last s hlast
    have hne : J.events ≠ [] := by
      intro h
      simp [InMemoryJournal.last_sequence, h] at hlast
    unfold ReplayEngine.replay_from ReplayEngine.replay_from_with_progress
    rw [is_empty_false_of_ne J hne]
    simp [hlast, Option.any, Nat.lt_succ_self]

/-- Witness for C8: empty journal and one-past-the-end start at concrete
inputs. -/
theorem replay_error_gating_witness :
    InMemoryJournal.new.events = [] ∧
    ReplayEngine.replay_from InMemoryJournal.new 7 "BTC/USD" = .error .EmptyJournal ∧
    wJournal2.last_sequence = some 2 ∧
    ReplayEngine.replay_from wJournal2 3 "BTC/USD" = .error (.InvalidSequence 3 2) :=
  ⟨rfl, replay_error_gating.1 InMemoryJournal.new 7 "BTC/USD" rfl,
    by decide, replay_error_gating.2 wJournal2 2 "BTC/USD" (by decide)⟩

/-- Claim C10: `verify` never returns `InvalidSequence` — it always replays
from sequence 0, so its outcomes are exactly `EmptyJournal`, an
`OrderBookError` from a failed re-application, or `Ok` with the boolean
result of `snapshots_match` on the replayed book's unbounded-depth
snapshot. -/
theorem verify_error_taxonomy (J : InMemoryJournal) (expected : OrderBookSnapshot)
    (ts : Nat) :
    (∀ fs ls, ReplayEngine.verify J expected ts ≠ .error (.InvalidSequence fs ls)) ∧
    (ReplayEngine.verify J expected ts = .error .EmptyJournal ∨
      (∃ n src, ReplayEngine.verify J expected ts = .error (.OrderBookError n src)) ∨
      (∃ book q, ReplayEngine.replay_from J 0 expected.symbol = .ok (book, q) ∧
        ReplayEngine.verify J expected ts
          = .ok (snapshots_match (book.create_snapshot USIZE_MAX ts) expected))) := by
  have hd : ReplayEngine.verify J expected ts = .error .EmptyJournal ∨
      (∃ n src, ReplayEngine.verify J expected ts = .error (.OrderBookError n src)) ∨
      (∃ book q, ReplayEngine.replay_from J 0 expected.symbol = .ok (book, q) ∧
        ReplayEngine.verify J expected ts
          = .ok (snapshots_match (book.create_snapshot USIZE_MAX ts) expected)) := by
    by_cases hJ : J.events = []
    · left
      unfold ReplayEngine.verify ReplayEngine.replay_from
        ReplayEngine.replay_from_with_progress
      simp [InMemoryJournal.is_empty, InMemoryJournal.len, hJ]
    · have hrw := replay_from_of_ne J hJ expected.symbol
      cases hl : ReplayEngine.replayLoop (fun (u : Unit) _ _ => u) J.events
          (OrderBook.new expected.symbol) 0 0 () with
      | error e =>
          obtain ⟨n, src, he⟩ := replayLoop_error_shape _ _ _ _ _ _ _ hl
          right; left
          refine ⟨n, src, ?_⟩
          unfold ReplayEngine.verify
          rw [hrw, hl, he]
      | ok r =>
          obtain ⟨book, q, u⟩ := r
          right; right
          refine ⟨book, q, ?_, ?_⟩
          · rw [hrw, hl]
          · unfold ReplayEngine.verify
            rw [hrw, hl]
  refine ⟨?_, hd⟩
  intro fs ls hcontra
  rcases hd with h | ⟨n, src, h⟩ | ⟨book, q, _, h⟩
  · rw [h] at hcontra
    exact absurd hcontra (by simp)
  · rw [h] at hcontra
    injection hcontra with h2
    simp at h2
  · rw [h] at hcontra
    exact absurd hcontra (by simp)

/-- Counterexample to C5 as stated: appending events out of sequence order
is accepted by the in-memory journal, and `read_from` then yields them in
insertion order `[2, 1]`, not in ascending sequence order. -/
theorem read_from_order_counterexample :
    InMemoryJournal.new.append cEventSeq2 = .ok { events := [cEventSeq2] } ∧
    InMemoryJournal.append { events := [cEventSeq2] } cEventSeq1 = .ok cJournalUnsorted ∧
    (cJournalUnsorted.read_from 0).map (fun e => e.sequence_num) = [2, 1] ∧
    ¬ List.Pairwise (· ≤ ·) ((cJournalUnsorted.read_from 0).map (fun e => e.sequence_num)) := by
  refine ⟨rfl, rfl, by decide, by decide⟩

/-- Claim C5 (amended): `read_from(from_seq)` yields exactly the stored
events with `sequence_num ≥ from_seq` and `read_range(from_seq, to_seq)`
exactly those with `from_seq ≤ sequence_num ≤ to_seq` (both bounds
inclusive), each in insertion order (a subsequence of the stored list);
the output is in ascending sequence order whenever the stored events are
in ascending sequence order — e.g. when the sequencer is the sole
appender — but not for arbitrary append orders. -/
theorem read_from_read_range_characterization (J : InMemoryJournal) (f t : Nat) :
    (J.read_from f).Sublist J.events ∧
    (∀ e, e ∈ J.read_from f ↔ e ∈ J.events ∧ f ≤ e.sequence_num) ∧
    (J.read_range f t).Sublist J.events ∧
    (∀ e, e ∈ J.read_range f t ↔
      e ∈ J.events ∧ f ≤ e.sequence_num ∧ e.sequence_num ≤ t) ∧
    (List.Pairwise (· ≤ ·) (J.events.map (fun e => e.sequence_num)) →
      List.Pairwise (· ≤ ·) ((J.read_from f).map (fun e => e.sequence_num)) ∧
      List.Pairwise (· ≤ ·) ((J.read_range f t).map (fun e => e.sequence_num))) := by
  refine ⟨List.filter_sublist _, ?_, List.filter_sublist _, ?_, ?_⟩
  · intro e
    simp [InMemoryJournal.read_from, List.mem_filter]
  · intro e
    simp [InMemoryJournal.read_range, List.mem_filter]
  · intro hp
    constructor
    · exact hp.sublist ((List.filter_sublist _).map _)
    · exact hp.sublist ((List.filter_sublist _).map _)

/-- Witness for C5 (amended) at a concrete sorted journal. -/
theorem read_from_read_range_characterization_witness :
    List.Pairwise (· ≤ ·) (wJournal2.events.map (fun e => e.sequence_num)) ∧
    List.Pairwise (· ≤ ·) ((wJournal2.read_from 2).map (fun e => e.sequence_num)) ∧
    (wJournal2.read_from 2).map (fun e => e.sequence_num) = [2] :=
  ⟨by decide,
    ((read_from_read_range_characterization wJournal2 2 2).2.2.2.2 (by decide)).1,
    by decide⟩

/-- Counterexample to C6 as stated: the journal `[add ok at seq 1,
rejected cancel at seq 2]` is non-empty with `from_sequence = 0` not
exceeding its last sequence, yet `replay_from` returns 2 — the sequence of
the trailing rejected event, whose command was never executed on the book;
the last event actually executed has sequence 1. -/
theorem replay_last_applied_counterexample :
    ReplayEngine.replay_from wJournal2 0 "BTC/USD" = .ok (wBook1, 2) ∧
    (wJournal2.events.filter (fun e => e.result.is_success)).map
      (fun e => e.sequence_num) = [1] ∧
    (2 : Nat) ≠ 1 := by
  refine ⟨by decide, by decide, by decide⟩

/-- Claim C6 (amended): whenever `replay_from` succeeds, its second
component is the sequence number of the last event read from the journal
(`sequence_num ≥ from_sequence`, in storage order), counting rejected
events that are skipped without being executed on the book; it is 0 when
no event is read. -/
theorem replay_last_seq (J : InMemoryJournal) (f : Nat) (s : String)
    (b : OrderBook) (q : Nat)
    (h : ReplayEngine.replay_from J f s = .ok (b, q)) :
    q = ((J.read_from f).map (fun e => e.sequence_num)).getLastD 0 := by
  unfold ReplayEngine.replay_from ReplayEngine.replay_from_with_progress at h
  split at h
  next book0 last0 u0 heq =>
    injection h with h2
    simp only [Prod.mk.injEq] at h2
    obtain ⟨hb, hq⟩ := h2
    subst hq
    split at heq
    · exact absurd heq (by simp)
    · split at heq
      · exact absurd heq (by simp)
      · exact replayLoop_last _ _ _ _ _ _ _ _ _ heq
  next e heq => exact absurd h (by simp)

/-- Witness for C6 (amended) at a concrete journal. -/
theorem replay_last_seq_witness :
    ReplayEngine.replay_from wJournal1 0 "BTC/USD" = .ok (wBook1, 1) ∧
    (1 : Nat) = ((wJournal1.read_from 0).map (fun e => e.sequence_num)).getLastD 0 :=
  ⟨by decide, replay_last_seq wJournal1 0 "BTC/USD" wBook1 1 (by decide)⟩

/-- Claim C7: whenever `replay_from_with_progress` succeeds, the recorded
progress invocations are exactly one per event read and applied, the i-th
invocation carrying `(i, sequence_num of the i-th applied event)` — i.e.
the log equals `[(1, s_1), …, (k, s_k)]` for the `k` events that
`read_from(from_sequence)` yields. -/
theorem replay_progress_protocol (J : InMemoryJournal) (f : Nat) (s : String)
    (b : OrderBook) (q : Nat) (log : List (Nat × Nat))
    (h : ReplayEngine.replay_from_with_progress J f s recordProgress [] = .ok (b, q, log)) :
    log = List.zip (List.range' 1 (J.read_from f).length)
      ((J.read_from f).map (fun e => e.sequence_num)) := by
  unfold ReplayEngine.replay_from_with_progress at h
  split at h
  · exact absurd h (by simp)
  · split at h
    · exact absurd h (by simp)
    · have := replayLoop_log (J.read_from f) (OrderBook.new s) 0 0 [] b q log h
      simpa using this

/-- Witness for C7 at a concrete journal: two events, two invocations. -/
theorem replay_progress_protocol_witness :
    ReplayEngine.replay_from_with_progress wJournal2 0 "BTC/USD" recordProgress []
      = .ok (wBook1, 2, [(1, 1), (2, 2)]) ∧
    [((1 : Nat), (1 : Nat)), (2, 2)]
      = List.zip (List.range' 1 (wJournal2.read_from 0).length)
          ((wJournal2.read_from 0).map (fun e => e.sequence_num)) :=
  ⟨by decide,
    replay_progress_protocol wJournal2 0 "BTC/USD" wBook1 2 [(1, 1), (2, 2)] (by decide)⟩

/-- Claim C4: replay idempotence under rejected skipping — inserting extra
events with `Rejected` results at arbitrary positions of a journal
(keeping sequence numbers strictly monotone) leaves the fully replayed
book unchanged, so its snapshot matches the original replay's snapshot
under `snapshots_match` for arbitrary snapshot timestamps. -/
theorem replay_rejected_insertion_invariance (J J' : InMemoryJournal) (s : String)
    (b : OrderBook) (q : Nat) (t t' : Nat)
    (hins : InsertedRejected J.events J'.events)
    (_hmono : List.Pairwise (· < ·) (J'.events.map (fun e => e.sequence_num)))
    (h : ReplayEngine.replay_from J 0 s = .ok (b, q)) :
    ∃ b' q', ReplayEngine.replay_from J' 0 s = .ok (b', q') ∧
      snapshots_match (b'.create_snapshot USIZE_MAX t) (b.create_snapshot USIZE_MAX t')
        = true := by
  have hne : J.events ≠ [] := by
    intro hempty
    have hereplay : ReplayEngine.replay_from J 0 s = .error .EmptyJournal := by
      unfold ReplayEngine.replay_from ReplayEngine.replay_from_with_progress
      simp [InMemoryJournal.is_empty, InMemoryJournal.len, hempty]
    rw [hereplay] at h
    exact absurd h (by simp)
  have hne' : J'.events ≠ [] := fun hnil => hne (hins.eq_nil hnil)
  rw [replay_from_of_ne J hne s] at h
  cases hl : ReplayEngine.replayLoop (fun (u : Unit) _ _ => u) J.events
      (OrderBook.new s) 0 0 () with
  | error e =>
      rw [hl] at h
      exact absurd h (by simp)
  | ok r =>
      obtain ⟨book, q0, u⟩ := r
      rw [hl] at h
      simp only [Except.ok.injEq, Prod.mk.injEq] at h
      obtain ⟨hb, hq⟩ := h
      subst hb
      cases u
      obtain ⟨q', hq'⟩ := replayLoop_inserted hins (OrderBook.new s) 0 0 0 0 book q0 hl
      refine ⟨book, q', ?_, ?_⟩
      · rw [replay_from_of_ne J' hne' s, hq']
      · exact create_snapshot_timestamp_irrelevant book USIZE_MAX t t'

/-- Witness for C4: inserting one rejected event at the tail of a
one-event journal. -/
theorem replay_rejected_insertion_invariance_witness :
    List.Pairwise (· < ·) (wJournal2.events.map (fun e => e.sequence_num)) ∧
    ∃ b' q', ReplayEngine.replay_from wJournal2 0 "BTC/USD" = .ok (b', q') ∧
      snapshots_match (b'.create_snapshot USIZE_MAX 5) (wBook1.create_snapshot USIZE_MAX 9)
        = true :=
  ⟨by decide,
    replay_rejected_insertion_invariance wJournal1 wJournal2 "BTC/USD" wBook1 1 5 9
      (InsertedRejected.keep wAddEvent
        (InsertedRejected.extra wRejEvent (by decide) InsertedRejected.nil))
      (by decide) (by decide)⟩
